import Mathlib

/-!
Verification of the next-hour precipitation forecast core of the
`ha-weatherkit` integration (`sensor.py`).

The embedding below translates the pure computation of
`WeatherKitNextHourForecastSensor` into Lean:

* minute samples (dict records with optional keys) become the `Minute`
  structure with `Option` fields; `dict.get(key, default)` becomes
  `Option.getD`;
* Python floats carry only comparisons (`> 0`, `== 0`, `max`, `< 2.5`,
  `< 10.0`) in this code, so intensities are embedded as `ℚ`;
* the segmentation `for` loop over `enumerate(minutes)` becomes a
  `List.foldl` over `List.enum`, with the loop state (`periods`,
  `current_period_start/type/max_intensity`) made explicit.
-/

namespace WeatherKit

/-- One entry of the `minutes` array of the `forecastNextHour` payload.
Fields are optional because the upstream JSON dict may lack any key
(`minute.get(...)` in `sensor.py`). -/
structure Minute where
  startTime : Option String := none
  precipitationIntensity : Option ℚ := none
  precipitationChance : Option ℚ := none
  precipitationType : Option String := none
deriving DecidableEq

/-- `minute.get("precipitationIntensity", 0.0)` (sensor.py line 147). -/
def Minute.inten (m : Minute) : ℚ := m.precipitationIntensity.getD 0

/-- `minute.get("precipitationType", "clear")` (sensor.py line 148). -/
def Minute.ptype (m : Minute) : String := m.precipitationType.getD "clear"

/-- One element of `precipitation_periods` (sensor.py lines 164-171):
the dict `{"start": ..., "end": ..., "type": ..., "max_intensity": ...}`.
`end` is a Lean keyword, hence the field name `endIdx`. -/
structure Period where
  start : ℕ
  endIdx : ℕ
  type : String
  max_intensity : ℚ
deriving DecidableEq

/-- The open-period part of the loop state of `_generate_forecast_summary`
(`current_period_start`, `current_period_type`,
`current_period_max_intensity`); `none` models `current_period_start is
None`, in which case the other two variables are never read. -/
structure OpenPeriod where
  start : ℕ
  ptype : String
  maxIntensity : ℚ
deriving DecidableEq

/-- One iteration of the segmentation loop of `_generate_forecast_summary`
(sensor.py lines 146-174): branch 1 opens a period, branch 2 extends it
(keeping the most recent non-"clear" type and the running max intensity),
branch 3 closes it at `i - 1`; a sample taken by no branch leaves the
state unchanged. -/
def segStep (st : List Period × Option OpenPeriod) (im : ℕ × Minute) :
    List Period × Option OpenPeriod :=
  let intensity := im.2.inten
  let ptype := im.2.ptype
  match st.2 with
  | none => if 0 < intensity then (st.1, some ⟨im.1, ptype, intensity⟩) else st
  | some op =>
    if 0 < intensity then
      (st.1, some ⟨op.start,
        if ptype ≠ "clear" then ptype else op.ptype,
        max op.maxIntensity intensity⟩)
    else if intensity = 0 then
      (st.1 ++ [⟨op.start, im.1 - 1, op.ptype, op.maxIntensity⟩], none)
    else st

/-- The segmentation phase of `_generate_forecast_summary` (sensor.py
lines 141-185): the loop over `enumerate(minutes)` followed by the
close-at-end-of-input step (lines 177-185, `end = len(minutes) - 1`). -/
def segment (minutes : List Minute) : List Period :=
  let st := minutes.enum.foldl segStep ([], none)
  match st.2 with
  | none => st.1
  | some op => st.1 ++ [⟨op.start, minutes.length - 1, op.ptype, op.maxIntensity⟩]

/-- One iteration of the segmentation loop inlined in the `icon` property
(sensor.py lines 328-356); the loop body is a verbatim copy of the one in
`_generate_forecast_summary`. -/
def segStepIcon (st : List Period × Option OpenPeriod) (im : ℕ × Minute) :
    List Period × Option OpenPeriod :=
  let intensity := im.2.inten
  let ptype := im.2.ptype
  match st.2 with
  | none => if 0 < intensity then (st.1, some ⟨im.1, ptype, intensity⟩) else st
  | some op =>
    if 0 < intensity then
      (st.1, some ⟨op.start,
        if ptype ≠ "clear" then ptype else op.ptype,
        max op.maxIntensity intensity⟩)
    else if intensity = 0 then
      (st.1 ++ [⟨op.start, im.1 - 1, op.ptype, op.maxIntensity⟩], none)
    else st

/-- The segmentation phase inlined in the `icon` property (sensor.py lines
323-367), a verbatim copy of the one in `_generate_forecast_summary`. -/
def segmentIcon (minutes : List Minute) : List Period :=
  let st := minutes.enum.foldl segStepIcon ([], none)
  match st.2 with
  | none => st.1
  | some op => st.1 ++ [⟨op.start, minutes.length - 1, op.ptype, op.maxIntensity⟩]

/-- Dominant type of a precipitation run, per spec §4.1: scan the run and
keep the most recent type that is not the clear marker, starting from the
type of the first sample of the run (the deliberate last-wins rule). -/
def runDominantType (first : Minute) (rest : List Minute) : String :=
  rest.foldl (fun t x => if x.ptype ≠ "clear" then x.ptype else t) first.ptype

/-- Peak intensity of a precipitation run, per spec §3: the maximum
intensity observed within the run. -/
def runPeakIntensity (first : Minute) (rest : List Minute) : ℚ :=
  rest.foldl (fun a x => max a x.inten) first.inten

/-- Specification-side segmentation (spec §4.1/§8): decompose the sample
sequence into its maximal contiguous runs of `intensity > 0` samples
(each run is the longest `takeWhile` of wet samples from its first wet
sample), emitting for each run its inclusive boundaries, dominant type
and peak intensity.  `n` is the absolute offset of the first sample of
`ms` in the full input. -/
def maximalRunSegments (n : ℕ) : List Minute → List Period
  | [] => []
  | m :: rest =>
    if 0 < m.inten then
      let run := rest.takeWhile (fun x => decide (0 < x.inten))
      let after := rest.dropWhile (fun x => decide (0 < x.inten))
      ⟨n, n + run.length, runDominantType m run, runPeakIntensity m run⟩ ::
        maximalRunSegments (n + run.length + 1) after
    else
      maximalRunSegments (n + 1) rest
termination_by ms => ms.length
decreasing_by
  · simpa using Nat.lt_succ_of_le (List.dropWhile_sublist _).length_le
  · simp

/-- The literal `2.5` (mm/h) of sensor.py lines 251, 380, 384 in fraction
form: Batteries marks `Rat.ofScientific` irreducible, which would block
kernel evaluation of the decimal literal; `rate25_eq` below checks the
two spellings denote the same rational. -/
def rate25 : ℚ := mkRat 5 2

/-- `_get_precipitation_description_key` (sensor.py lines 246-267): the
intensity-tier text followed by the precipitation type, with
`"precipitation"` as the fallback type name.  The thresholds are the
source literals `2.5` (as `rate25`) and `10.0`. -/
def getPrecipitationDescriptionKey (precipType : String) (maxIntensity : ℚ) : String :=
  let intensityPfx : String :=
    if maxIntensity < rate25 then "light_"
    else if maxIntensity < 10 then "moderate_"
    else "heavy_"
  if precipType = "rain" then intensityPfx ++ "rain"
  else if precipType = "snow" then intensityPfx ++ "snow"
  else if precipType = "sleet" then intensityPfx ++ "sleet"
  else if precipType = "hail" then intensityPfx ++ "hail"
  else intensityPfx ++ "precipitation"

/-- Specification-side tier of spec §3/§4.2: `peakIntensity < 2.5 → light`,
`< 10.0 → moderate`, else `heavy`. -/
def tierOf (peakIntensity : ℚ) : String :=
  if peakIntensity < rate25 then "light"
  else if peakIntensity < 10 then "moderate"
  else "heavy"

/-- Specification-side type name of spec §4.2: one of
rain/snow/sleet/hail, with `"precipitation"` as the fallback for any
other (including clear) dominant type. -/
def typeNameOf (t : String) : String :=
  if t = "rain" ∨ t = "snow" ∨ t = "sleet" ∨ t = "hail" then t else "precipitation"

/-- Python `key.replace("_", " ")` as called in sensor.py (lines 277 and
289): the pattern and replacement are the single characters `_` and a
space, for which Python string replacement is exactly per-character
substitution. -/
def underscoreToSpace (s : String) : String :=
  ⟨s.data.map (fun c => if c = '_' then ' ' else c)⟩

/-- Model of Python `str.title()` for the fallback path of
`_translate_state`: an alphabetic character is uppercased when the
previous character is not alphabetic and lowercased otherwise. -/
def pyTitleAux : List Char → Bool → List Char
  | [], _ => []
  | c :: rest, prevAlpha =>
    (if c.isAlpha then (if prevAlpha then c.toLower else c.toUpper) else c) ::
      pyTitleAux rest c.isAlpha

/-- Model of Python `str.title()`. -/
def pyTitle (s : String) : String := ⟨pyTitleAux s.data false⟩

/-- The injected translation table (`translation.async_get_cached_translations`
result): a finite lookup from full translation keys to localized text. -/
def Translations : Type := String → Option String

/-- `_translate_state` (sensor.py lines 269-277): look the key up in the
cached translations, falling back to the title-cased,
underscore-to-space version of the key. -/
def translateState (tr : Translations) (stateKey : String) : String :=
  let translationKey :=
    "component.custom_weatherkit.entity.sensor.next_hour_forecast.state." ++ stateKey
  (tr translationKey).getD (pyTitle (underscoreToSpace stateKey))

/-- The two exception kinds caught by `_translate_forecast` (sensor.py
line 293): `KeyError` (placeholder name not in the map) and `ValueError`
(malformed template, e.g. an unmatched brace). -/
inductive FormatError
  | keyError
  | valueError
deriving DecidableEq

deriving instance DecidableEq for Except

/-- The opening curly brace character. -/
def lbrace : Char := '\x7b'

/-- The closing curly brace character. -/
def rbrace : Char := '\x7d'

/-- Model of Python `template.format(**placeholders)` for templates whose
replacement fields are plain names (the only shape appearing in this
code): scan the character list; `\x7b\x7b`/`\x7d\x7d` are literal brace
escapes, a field between braces is looked up in the placeholder map
(`KeyError` when missing), and a lone or unterminated brace is a
`ValueError`.  The second argument is `none` outside a field and
`some acc` inside one, `acc` holding the reversed field name read so
far. -/
def pyFormatAux (ph : List (String × String)) :
    Option (List Char) → List Char → Except FormatError String
  | none, [] => Except.ok ""
  | none, c :: rest =>
    if c = lbrace then
      match rest with
      | [] => Except.error FormatError.valueError
      | c2 :: rest2 =>
        if c2 = lbrace then
          (fun s => String.mk [lbrace] ++ s) <$> pyFormatAux ph none rest2
        else pyFormatAux ph (some []) (c2 :: rest2)
    else if c = rbrace then
      match rest with
      | [] => Except.error FormatError.valueError
      | c2 :: rest2 =>
        if c2 = rbrace then
          (fun s => String.mk [rbrace] ++ s) <$> pyFormatAux ph none rest2
        else Except.error FormatError.valueError
    else (fun s => String.mk [c] ++ s) <$> pyFormatAux ph none rest
  | some _, [] => Except.error FormatError.valueError
  | some acc, c :: rest =>
    if c = rbrace then
      match ph.lookup (String.mk acc.reverse) with
      | some v => (fun s => v ++ s) <$> pyFormatAux ph none rest
      | none => Except.error FormatError.keyError
    else if c = lbrace then Except.error FormatError.valueError
    else pyFormatAux ph (some (c :: acc)) rest

/-- Model of Python `template.format(**placeholders)` (see `pyFormatAux`). -/
def pyFormat (template : String) (ph : List (String × String)) :
    Except FormatError String :=
  pyFormatAux ph none template.data

/-- The fixed template table of `_translate_forecast` (sensor.py lines
282-287). -/
def forecastTemplates : List (String × String) :=
  [("now", "{precipitation} now"),
   ("for_next_minutes", "{precipitation} for the next {duration} minutes"),
   ("in_minutes", "{precipitation} in {minutes} minutes"),
   ("starting_in_minutes_lasting",
     "{precipitation} starting in {start_minutes} minutes, lasting {duration} minutes")]

/-- The template text `_translate_forecast` uses for a key:
`templates.get(key, key.replace("_", " "))` (sensor.py line 289). -/
def templateFor (key : String) : String :=
  (forecastTemplates.lookup key).getD (underscoreToSpace key)

/-- `_translate_forecast` (sensor.py lines 279-300): format the template
for the key with the placeholder map; on `KeyError`/`ValueError` log a
warning and return the unformatted template text. -/
def translateForecast (key : String) (placeholders : List (String × String)) : String :=
  let template := templateFor key
  match pyFormat template placeholders with
  | Except.ok s => s
  | Except.error _ => template

/-- The per-period fragment of the summary loop of
`_generate_forecast_summary` (sensor.py lines 192-238): resolve the
description key, then pick one of the four templates from the period's
start and duration. -/
def renderPeriod (tr : Translations) (period : Period) : String :=
  let startMinute := period.start
  let endMinute := period.endIdx
  let duration := endMinute - startMinute + 1
  let precipDescKey := getPrecipitationDescriptionKey period.type period.max_intensity
  let precipDesc := translateState tr precipDescKey
  if startMinute = 0 then
    if duration = 1 then
      translateForecast "now" [("precipitation", precipDesc)]
    else
      translateForecast "for_next_minutes"
        [("precipitation", precipDesc), ("duration", toString duration)]
  else if duration = 1 then
    translateForecast "in_minutes"
      [("precipitation", precipDesc), ("minutes", toString startMinute)]
  else
    translateForecast "starting_in_minutes_lasting"
      [("precipitation", precipDesc), ("start_minutes", toString startMinute),
        ("duration", toString duration)]

/-- The summary-text phase of `_generate_forecast_summary` (sensor.py
lines 187-244): the "no periods" early return, the per-period fragment
list, and the final `"; ".join(...)` with its redundant empty-parts
fallback. -/
def renderSummary (tr : Translations) (ps : List Period) : String :=
  if ps.isEmpty then translateState tr "no_precipitation"
  else
    let parts := ps.map (renderPeriod tr)
    if parts.isEmpty then translateState tr "no_precipitation"
    else String.intercalate "; " parts

/-- `_generate_forecast_summary` (sensor.py lines 138-244): segmentation
followed by summary rendering. -/
def generateForecastSummary (tr : Translations) (minutes : List Minute) : String :=
  renderSummary tr (segment minutes)

/-- Specification-side per-period rendering of spec §4.3: the four
phrasing templates selected by the priority cases
`start == 0 ∧ duration == 1`, `start == 0 ∧ duration > 1`,
`start > 0 ∧ duration == 1`, `start > 0 ∧ duration > 1`, with
`duration = end - start + 1`. -/
def specRenderPeriod (tr : Translations) (p : Period) : String :=
  let duration := p.endIdx - p.start + 1
  let desc := translateState tr (getPrecipitationDescriptionKey p.type p.max_intensity)
  if p.start = 0 ∧ duration = 1 then
    translateForecast "now" [("precipitation", desc)]
  else if p.start = 0 ∧ 1 < duration then
    translateForecast "for_next_minutes"
      [("precipitation", desc), ("duration", toString duration)]
  else if 0 < p.start ∧ duration = 1 then
    translateForecast "in_minutes"
      [("precipitation", desc), ("minutes", toString p.start)]
  else if 0 < p.start ∧ 1 < duration then
    translateForecast "starting_in_minutes_lasting"
      [("precipitation", desc), ("start_minutes", toString p.start),
        ("duration", toString duration)]
  else ""

/-- The icon computation of the `icon` property given a present
`forecastNextHour` payload (sensor.py lines 311-391): the daylight flag,
the empty-minutes day/night default, the inlined segmentation
(`segmentIcon`), the no-period day/night default, and the first-period
type/intensity mapping. -/
def forecastIcon (isDaylight : Bool) (minutes : List Minute) : String :=
  if minutes.isEmpty then
    if isDaylight then "mdi:weather-sunny" else "mdi:weather-night"
  else
    match segmentIcon minutes with
    | [] => if isDaylight then "mdi:weather-sunny" else "mdi:weather-night"
    | firstPeriod :: _ =>
      if firstPeriod.type = "rain" then
        if firstPeriod.max_intensity < rate25 then "mdi:weather-rainy"
        else "mdi:weather-pouring"
      else if firstPeriod.type = "snow" then
        if firstPeriod.max_intensity < rate25 then "mdi:weather-snowy"
        else "mdi:weather-snowy-heavy"
      else if firstPeriod.type = "sleet" then "mdi:weather-snowy-rainy"
      else if firstPeriod.type = "hail" then "mdi:weather-hail"
      else "mdi:weather-rainy"

/-- Specification-side icon selection of spec §4.4: empty period list →
day/night default; otherwise only the first period decides, via
rain/snow split by tier (light vs moderate-or-heavy), sleet, hail, and a
generic rain fallback. -/
def selectIcon (periods : List Period) (isDaylight : Bool) : String :=
  match periods with
  | [] => if isDaylight then "mdi:weather-sunny" else "mdi:weather-night"
  | p :: _ =>
    if p.type = "rain" then
      if tierOf p.max_intensity = "light" then "mdi:weather-rainy"
      else "mdi:weather-pouring"
    else if p.type = "snow" then
      if tierOf p.max_intensity = "light" then "mdi:weather-snowy"
      else "mdi:weather-snowy-heavy"
    else if p.type = "sleet" then "mdi:weather-snowy-rainy"
    else if p.type = "hail" then "mdi:weather-hail"
    else "mdi:weather-rainy"

/-- A value stored in the `forecastNextHour` dict: a timestamp-like
string (`forecastStart`/`forecastEnd`) or the `minutes` list.  The dict
itself is modelled as an association list so that Python's emptiness
check (`if not next_hour_data`) and key-containment checks are exact. -/
inductive NHVal
  | str (s : String)
  | minuteList (ms : List Minute)
deriving DecidableEq

/-- The `forecastNextHour` payload: a JSON-like dict. -/
abbrev NextHourData : Type := List (String × NHVal)

/-- `next_hour_data.get("minutes", [])` (sensor.py lines 128, 316, 412),
assuming a well-typed payload (the upstream contract types `minutes` as
a list of minute dicts). -/
def getMinutes (nh : NextHourData) : List Minute :=
  match nh.lookup "minutes" with
  | some (NHVal.minuteList ms) => ms
  | _ => []

/-- The coordinator data relevant to the sensor: `none` models falsy
`self.coordinator.data`; `forecastNextHour = none` models the
`ATTR_FORECAST_NEXT_HOUR` key being absent. -/
structure TopData where
  forecastNextHour : Option NextHourData
deriving DecidableEq

/-- A Home Assistant sensor state: `None` (no value) or a string. -/
inductive StateVal
  | noValue
  | strVal (s : String)
deriving DecidableEq

/-- The `native_value` property (sensor.py lines 101-136): unavailable
coordinator → no value; falsy/absent data → no value; absent
`forecastNextHour` key → no value; empty payload or missing/empty
`minutes` → translated "no precipitation"; otherwise the summary of the
first 60 minutes. -/
def nativeValue (tr : Translations) (lastUpdateSuccess : Bool)
    (data : Option TopData) : StateVal :=
  if !lastUpdateSuccess then StateVal.noValue
  else
    match data with
    | none => StateVal.noValue
    | some d =>
      match d.forecastNextHour with
      | none => StateVal.noValue
      | some nh =>
        if nh.isEmpty then StateVal.strVal (translateState tr "no_precipitation")
        else
          let minutes := getMinutes nh
          if minutes.isEmpty then
            StateVal.strVal (translateState tr "no_precipitation")
          else StateVal.strVal (generateForecastSummary tr (minutes.take 60))

/-- One record of the `minutes` state attribute (sensor.py lines
415-423): a pass-through of the four per-minute fields, each `None`
when absent from the source dict. -/
structure MinuteAttr where
  start_time : Option String
  precipitation_intensity : Option ℚ
  precipitation_chance : Option ℚ
  precipitation_type : Option String
deriving DecidableEq

/-- The per-minute record built by `extra_state_attributes`. -/
def minuteToAttr (m : Minute) : MinuteAttr :=
  ⟨m.startTime, m.precipitationIntensity, m.precipitationChance, m.precipitationType⟩

/-- The attributes dict built by `extra_state_attributes`; `none` fields
model absent keys. -/
structure Attributes where
  forecast_start : Option NHVal := none
  forecast_end : Option NHVal := none
  minutes : Option (List MinuteAttr) := none
  minute_count : Option ℕ := none
deriving DecidableEq

/-- The `extra_state_attributes` property (sensor.py lines 393-426):
empty for absent data, pass-through `forecast_start`/`forecast_end`
when their keys are present, and — when the `minutes` list is non-empty
— the per-minute pass-through records plus `minute_count = len(minutes)`
with no truncation. -/
def extraStateAttributes (data : Option TopData) : Attributes :=
  match data with
  | none => {}
  | some d =>
    match d.forecastNextHour with
    | none => {}
    | some nh =>
      let base : Attributes :=
        { forecast_start := nh.lookup "forecastStart",
          forecast_end := nh.lookup "forecastEnd" }
      let minutes := getMinutes nh
      if minutes.isEmpty then base
      else
        { base with
          minutes := some (minutes.map minuteToAttr),
          minute_count := some minutes.length }

/-- The empty translation table (no cached translations), used for the
concrete evaluations below. -/
def trEmpty : Translations := fun _ => none

/-- A minute dict with no keys: intensity defaults to `0.0`. -/
def dryMinute : Minute := ⟨none, none, none, none⟩

/-- A light-rain minute sample. -/
def wetRainMinute : Minute := ⟨none, some 1, none, some "rain"⟩

/-- A 61-sample input whose only wet minute is the 61st: the shortest
shape on which truncation to the first 60 samples is observable. -/
def minutes61 : List Minute := List.replicate 60 dryMinute ++ [wetRainMinute]

/-- The `forecastNextHour` payload holding exactly a `minutes` list. -/
def nhWith (ms : List Minute) : NextHourData := [("minutes", NHVal.minuteList ms)]

/-- The open-period update applied by the wet-continuation branch of the
segmentation loop (sensor.py lines 156-161). -/
def stepOp (op : OpenPeriod) (m : Minute) : OpenPeriod :=
  ⟨op.start, if m.ptype ≠ "clear" then m.ptype else op.ptype,
    max op.maxIntensity m.inten⟩

/-- Close a possibly open period at the end of the input (sensor.py lines
177-185), `len` being the length of the full input. -/
def segFinish (st : List Period × Option OpenPeriod) (len : ℕ) : List Period :=
  match st.2 with
  | none => st.1
  | some op => st.1 ++ [⟨op.start, len - 1, op.ptype, op.maxIntensity⟩]

theorem segment_eq_segFinish (ms : List Minute) :
    segment ms = segFinish (ms.enum.foldl segStep ([], none)) ms.length := rfl

theorem enumFrom_cons' {α : Type} (n : ℕ) (a : α) (l : List α) :
    List.enumFrom n (a :: l) = (n, a) :: List.enumFrom (n + 1) l := rfl

theorem dropWhile_head_not {α : Type} (p : α → Bool) (l : List α) (d : α)
    (t : List α) (h : l.dropWhile p = d :: t) : p d = false := by
  induction l with
  | nil => simp [List.dropWhile] at h
  | cons x xs ih =>
    rw [List.dropWhile_cons] at h
    by_cases hx : p x
    · exact ih (by simpa [hx] using h)
    · simp only [hx, if_false] at h
      obtain ⟨rfl, -⟩ := List.cons.injEq .. ▸ h
      simpa using hx

/-- Folding the open-period update decomposes componentwise into the
dominant-type fold and the peak-intensity fold. -/
theorem foldl_stepOp (l : List Minute) : ∀ op : OpenPeriod,
    l.foldl stepOp op =
      ⟨op.start,
        l.foldl (fun t x => if x.ptype ≠ "clear" then x.ptype else t) op.ptype,
        l.foldl (fun a x => max a x.inten) op.maxIntensity⟩ := by
  induction l with
  | nil => intro op; rfl
  | cons m rest ih => intro op; simpa [stepOp] using ih (stepOp op m)

/-- Running the segmentation loop over a block of wet samples extends the
open period by `stepOp` on each sample and emits nothing. -/
theorem foldl_segStep_wetRun (run : List Minute) :
    ∀ (rest : List Minute) (n : ℕ) (acc : List Period) (op : OpenPeriod),
    (∀ x ∈ run, 0 < x.inten) →
    (List.enumFrom n (run ++ rest)).foldl segStep (acc, some op) =
      (List.enumFrom (n + run.length) rest).foldl segStep
        (acc, some (run.foldl stepOp op)) := by
  induction run with
  | nil => intro rest n acc op _; simp
  | cons m rtail ih =>
    intro rest n acc op hwet
    have hm : 0 < m.inten := hwet m (by simp)
    have step : segStep (acc, some op) (n, m) = (acc, some (stepOp op m)) := by
      simp [segStep, stepOp, hm]
    rw [List.cons_append, enumFrom_cons', List.foldl_cons, step,
      ih rest (n + 1) acc (stepOp op m) (fun x hx => hwet x (by simp [hx]))]
    simp only [List.foldl_cons, List.length_cons,
      Nat.add_right_comm n 1 rtail.length, Nat.add_assoc]

/-- Main loop invariant: running the segmentation loop from a closed
state over a nonnegative-intensity suffix starting at absolute offset
`n`, then closing any open period at the end of the input, appends
exactly the maximal-run decomposition of that suffix. -/
theorem foldl_stepOp_run (l : List Minute) (m : Minute) (n : ℕ) :
    l.foldl stepOp ⟨n, m.ptype, m.inten⟩ =
      ⟨n, runDominantType m l, runPeakIntensity m l⟩ := by
  rw [foldl_stepOp]
  rfl

/-- Main loop invariant: running the segmentation loop from a closed
state over a nonnegative-intensity suffix starting at absolute offset
`n`, then closing any open period at the end of the input, appends
exactly the maximal-run decomposition of that suffix. -/
theorem segFinish_foldl_eq_maximalRuns (k : ℕ) :
    ∀ (ms : List Minute) (n : ℕ) (acc : List Period),
    ms.length ≤ k → (∀ m ∈ ms, 0 ≤ m.inten) →
    segFinish ((List.enumFrom n ms).foldl segStep (acc, none)) (n + ms.length) =
      acc ++ maximalRunSegments n ms := by
  induction k with
  | zero =>
    intro ms n acc hlen _
    have : ms = [] := List.length_eq_zero.mp (Nat.le_zero.mp hlen)
    subst this
    simp [segFinish, maximalRunSegments]
  | succ k ih =>
    intro ms n acc hlen hpos
    match ms with
    | [] => simp [segFinish, maximalRunSegments]
    | m :: rest =>
      by_cases hm : 0 < m.inten
      · -- wet head: the run opens here
        have hrunwet : ∀ y ∈ rest.takeWhile (fun x => decide (0 < x.inten)),
            0 < y.inten := fun y hy => by simpa using List.mem_takeWhile_imp hy
        have hrest : rest = rest.takeWhile (fun x => decide (0 < x.inten)) ++
            rest.dropWhile (fun x => decide (0 < x.inten)) :=
          (List.takeWhile_append_dropWhile ..).symm
        have hunfold : maximalRunSegments n (m :: rest) =
            ⟨n, n + (rest.takeWhile (fun x => decide (0 < x.inten))).length,
              runDominantType m (rest.takeWhile (fun x => decide (0 < x.inten))),
              runPeakIntensity m (rest.takeWhile (fun x => decide (0 < x.inten)))⟩ ::
            maximalRunSegments
              (n + (rest.takeWhile (fun x => decide (0 < x.inten))).length + 1)
              (rest.dropWhile (fun x => decide (0 < x.inten))) := by
          rw [maximalRunSegments]
          simp [hm]
        obtain ⟨run, hrundef⟩ :
            ∃ r, rest.takeWhile (fun x => decide (0 < x.inten)) = r := ⟨_, rfl⟩
        obtain ⟨after, hafterdef⟩ :
            ∃ a, rest.dropWhile (fun x => decide (0 < x.inten)) = a := ⟨_, rfl⟩
        rw [hrundef] at hrunwet hunfold
        rw [hrundef, hafterdef] at hrest
        rw [hafterdef] at hunfold
        have open0 : segStep (acc, none) (n, m) =
            (acc, some ⟨n, m.ptype, m.inten⟩) := by
          simp [segStep, hm]
        rw [enumFrom_cons', List.foldl_cons, open0, hunfold]
        conv_lhs => rw [hrest]
        rw [foldl_segStep_wetRun _ _ _ _ _ hrunwet, foldl_stepOp_run]
        cases after with
        | nil =>
          have hlen2 : rest.length = run.length := by
            conv_lhs => rw [hrest]
            simp
          simp only [List.enumFrom, List.foldl_nil, segFinish]
          have htail : maximalRunSegments (n + run.length + 1) ([] : List Minute) = [] := by
            simp [maximalRunSegments]
          rw [htail]
          simp only [List.length_cons, List.length_append, List.length_nil]
          congr 2
        | cons d atail =>
          have hdfalse : (fun x => decide (0 < x.inten)) d = false :=
            dropWhile_head_not _ rest d atail hafterdef
          have hd0 : ¬ 0 < d.inten := by simpa using hdfalse
          have hdz : d.inten = 0 := le_antisymm (not_lt.mp hd0)
            (hpos d (by rw [hrest]; simp))
          have close : segStep
              (acc, some ⟨n, runDominantType m run, runPeakIntensity m run⟩)
              (n + 1 + run.length, d) =
              (acc ++ [⟨n, n + run.length, runDominantType m run,
                runPeakIntensity m run⟩], none) := by
            simp [segStep, hd0, hdz]
          rw [enumFrom_cons', List.foldl_cons, close]
          have hlens : rest.length = run.length + 1 + atail.length := by
            conv_lhs => rw [hrest]
            simp
            omega
          have hatail_le : atail.length ≤ k := by
            have h1 : (m :: rest).length ≤ k + 1 := hlen
            simp only [List.length_cons] at h1
            omega
          have hatail_pos : ∀ x ∈ atail, 0 ≤ x.inten := fun x hx =>
            hpos x (by rw [hrest]; simp [hx])
          have harith : n + (m :: (run ++ d :: atail)).length =
              (n + 1 + run.length + 1) + atail.length := by
            simp only [List.length_cons, List.length_append]
            omega
          rw [harith, ih atail (n + 1 + run.length + 1) _ hatail_le hatail_pos]
          have hunfold2 : maximalRunSegments (n + run.length + 1) (d :: atail) =
              maximalRunSegments (n + run.length + 1 + 1) atail := by
            rw [maximalRunSegments]
            simp [hd0]
          rw [hunfold2,
            show n + run.length + 1 + 1 = n + 1 + run.length + 1 by omega]
          simp
      · -- dry head: nothing opens
        have step : segStep (acc, none) (n, m) = (acc, none) := by
          simp [segStep, hm]
        have harith : n + (m :: rest).length = (n + 1) + rest.length := by
          simp only [List.length_cons]
          omega
        have hunfold : maximalRunSegments n (m :: rest) =
            maximalRunSegments (n + 1) rest := by
          rw [maximalRunSegments]
          simp [hm]
        rw [enumFrom_cons', List.foldl_cons, step, harith,
          ih rest (n + 1) acc (by simp only [List.length_cons] at hlen; omega)
            (fun x hx => hpos x (by simp [hx])), hunfold]

/-- The precipitation type reported at index `i` of the input, with the
dict default `"clear"` for a missing key and for an out-of-range index. -/
def ptypeAt (ms : List Minute) (i : ℕ) : String :=
  ((ms[i]?).map Minute.ptype).getD "clear"

theorem ptypeAt_cons_succ (m : Minute) (t : List Minute) (j : ℕ) :
    ptypeAt (m :: t) (j + 1) = ptypeAt t j := by
  simp [ptypeAt]

theorem foldl_type_all_clear (l : List Minute) :
    ∀ t : String, (∀ x ∈ l, x.ptype = "clear") →
    l.foldl (fun t x => if x.ptype ≠ "clear" then x.ptype else t) t = t := by
  induction l with
  | nil => intro t _; rfl
  | cons x xs ih =>
    intro t h
    have hx : x.ptype = "clear" := h x (by simp)
    simp only [List.foldl_cons, hx]
    simpa using ih t (fun y hy => h y (by simp [hy]))

/-- Every emitted maximal run starts at or after the current offset, has
ordered boundaries, and — when every sample of the run reports the clear
type — records the clear type as its dominant type. -/
theorem maximalRunSegments_mem (k : ℕ) :
    ∀ (ms : List Minute) (n : ℕ) (p : Period),
    ms.length ≤ k → p ∈ maximalRunSegments n ms →
    n ≤ p.start ∧ p.start ≤ p.endIdx ∧
    ((∀ i, p.start ≤ i → i ≤ p.endIdx → ptypeAt ms (i - n) = "clear") →
      p.type = "clear") := by
  induction k with
  | zero =>
    intro ms n p hlen hp
    have : ms = [] := List.length_eq_zero.mp (Nat.le_zero.mp hlen)
    subst this
    simp [maximalRunSegments] at hp
  | succ k ih =>
    intro ms n p hlen hp
    match ms with
    | [] => simp [maximalRunSegments] at hp
    | m :: rest =>
      by_cases hm : 0 < m.inten
      · rw [maximalRunSegments, if_pos hm] at hp
        rcases List.mem_cons.mp hp with hpe | hp
        · -- p is the run opened at the head
          subst hpe
          refine ⟨le_rfl, by simp, ?_⟩
          intro hall
          dsimp only at hall
          show runDominantType m (rest.takeWhile (fun x => decide (0 < x.inten))) = "clear"
          have hmclear : m.ptype = "clear" := by
            have := hall n le_rfl (by omega)
            simpa [ptypeAt] using this
          have hrunclear : ∀ x ∈ rest.takeWhile (fun x => decide (0 < x.inten)),
              x.ptype = "clear" := by
            intro x hx
            obtain ⟨j, hj, hxj⟩ := List.getElem_of_mem hx
            obtain ⟨t, ht⟩ := List.takeWhile_prefix
              (l := rest) (fun x => decide (0 < x.inten))
            have hjrest : j < rest.length := by
              have := List.IsPrefix.length_le ⟨t, ht⟩
              omega
            have hrestj : rest[j]? = some x := by
              rw [← ht, List.getElem?_append_left hj, List.getElem?_eq_getElem hj, hxj]
            have hi := hall (n + (j + 1)) (by omega) (by omega)
            rw [show n + (j + 1) - n = j + 1 by omega, ptypeAt_cons_succ] at hi
            simpa [ptypeAt, hrestj] using hi
          show (rest.takeWhile (fun x => decide (0 < x.inten))).foldl
            (fun t x => if x.ptype ≠ "clear" then x.ptype else t) m.ptype = "clear"
          rw [hmclear]
          exact foldl_type_all_clear _ _ hrunclear
        · -- p comes from the recursion past the run
          have hafter_le :
              (rest.dropWhile (fun x => decide (0 < x.inten))).length ≤ k := by
            have h1 := (List.dropWhile_sublist
              (fun x => decide (0 < x.inten)) (l := rest)).length_le
            simp only [List.length_cons] at hlen
            omega
          obtain ⟨h1, h2, h3⟩ := ih _ _ _ hafter_le hp
          refine ⟨by omega, h2, ?_⟩
          intro hall
          refine h3 ?_
          intro i hi1 hi2
          obtain ⟨t2, ht2⟩ := List.takeWhile_prefix
            (l := rest) (fun x => decide (0 < x.inten))
          have hrest : rest = rest.takeWhile (fun x => decide (0 < x.inten)) ++
              rest.dropWhile (fun x => decide (0 < x.inten)) :=
            (List.takeWhile_append_dropWhile ..).symm
          have hbig : n + (rest.takeWhile (fun x => decide (0 < x.inten))).length + 1 ≤ i := by
            omega
          have := hall i hi1 hi2
          rw [show i - n = (i - n - 1) + 1 by omega, ptypeAt_cons_succ] at this
          rw [hrest] at this
          rw [show i - (n + (rest.takeWhile (fun x => decide (0 < x.inten))).length + 1) =
            i - n - 1 - (rest.takeWhile (fun x => decide (0 < x.inten))).length by omega]
          rw [ptypeAt, List.getElem?_append_right (by omega)] at this
          exact this
      · rw [maximalRunSegments, if_neg hm] at hp
        obtain ⟨h1, h2, h3⟩ := ih rest (n + 1) p
          (by simp only [List.length_cons] at hlen; omega) hp
        refine ⟨by omega, h2, ?_⟩
        intro hall
        refine h3 ?_
        intro i hi1 hi2
        have := hall i hi1 hi2
        rw [show i - n = (i - (n + 1)) + 1 by omega, ptypeAt_cons_succ] at this
        exact this

theorem segment_eq_maximalRunSegments (ms : List Minute)
    (h : ∀ m ∈ ms, 0 ≤ m.inten) : segment ms = maximalRunSegments 0 ms := by
  have := segFinish_foldl_eq_maximalRuns ms.length ms 0 [] le_rfl h
  simpa [segment_eq_segFinish, List.enum] using this

/-- `rate25` is the decimal literal `2.5` of the source. -/
theorem rate25_eq : rate25 = 2.5 := by
  norm_num [rate25]

theorem descKey_eq (t : String) (i : ℚ) :
    getPrecipitationDescriptionKey t i = tierOf i ++ "_" ++ typeNameOf t := by
  unfold getPrecipitationDescriptionKey tierOf typeNameOf
  split_ifs <;> simp_all

theorem tierOf_eq_light_iff (i : ℚ) : tierOf i = "light" ↔ i < rate25 := by
  unfold tierOf
  split_ifs with h1 h2
  · simp [h1]
  · have hml : ("moderate" : String) ≠ "light" := by decide
    simp [hml, h1]
  · have hhl : ("heavy" : String) ≠ "light" := by decide
    simp [hhl, h1]

theorem renderPeriod_eq_spec (tr : Translations) (p : Period) :
    renderPeriod tr p = specRenderPeriod tr p := by
  unfold renderPeriod specRenderPeriod
  simp only []
  split_ifs <;> first | rfl | omega

/-- C1: For every input sequence of minute samples (intensities are
nonnegative, per the data model `intensity: float ≥ 0`), the segmenter
returns exactly the maximal contiguous runs of samples with
`intensity > 0`, in input order: the emitted period list equals the
maximal-run decomposition — same inclusive start/end boundaries, same
peak intensity (the maximum observed within the run) — and in
particular the number of periods equals the number of runs. -/
theorem c1_segmenter_maximal_runs (ms : List Minute)
    (h : ∀ m ∈ ms, 0 ≤ m.inten) :
    segment ms = maximalRunSegments 0 ms ∧
    (segment ms).length = (maximalRunSegments 0 ms).length :=
  ⟨segment_eq_maximalRunSegments ms h,
    congrArg List.length (segment_eq_maximalRunSegments ms h)⟩

/-- Witness for C1 at a concrete wet-dry-wet input. -/
theorem c1_segmenter_maximal_runs_witness :
    (∀ m ∈ [(⟨none, some 1, none, some "rain"⟩ : Minute),
      ⟨none, none, none, none⟩, ⟨none, some 3, none, some "snow"⟩],
      0 ≤ m.inten) ∧
    segment [(⟨none, some 1, none, some "rain"⟩ : Minute),
        ⟨none, none, none, none⟩, ⟨none, some 3, none, some "snow"⟩] =
      maximalRunSegments 0 [(⟨none, some 1, none, some "rain"⟩ : Minute),
        ⟨none, none, none, none⟩, ⟨none, some 3, none, some "snow"⟩] :=
  ⟨by decide, (c1_segmenter_maximal_runs _ (by decide)).1⟩

/-- C2 (code bug): the summary path of `native_value` truncates the
minutes to the first 60, but the `icon` property segments the full,
untruncated list, so on a 61-sample input whose only wet minute is the
61st the icon differs between the full input and its first-60
truncation, while the rendered summary string is the same. -/
theorem c2_icon_truncation_bug :
    nativeValue trEmpty true (some ⟨some (nhWith minutes61)⟩) =
      nativeValue trEmpty true (some ⟨some (nhWith (minutes61.take 60))⟩) ∧
    forecastIcon true minutes61 = "mdi:weather-rainy" ∧
    forecastIcon true (minutes61.take 60) = "mdi:weather-sunny" ∧
    forecastIcon true minutes61 ≠ forecastIcon true (minutes61.take 60) := by
  refine ⟨by decide, by decide, by decide, by decide⟩

/-- C3: template substitution failure never escapes
`_translate_forecast`: whenever formatting the template registered for a
key fails (missing or malformed placeholder), the fragment falls back to
that template's raw unformatted text; and the summary renderer composes
per-period fragments independently, so every other period is still
rendered and joined with "; ". -/
theorem c3_template_failure_fallback :
    (∀ (key : String) (ph : List (String × String)) (e : FormatError),
      pyFormat (templateFor key) ph = Except.error e →
      translateForecast key ph = templateFor key) ∧
    (∀ (tr : Translations) (ps1 ps2 : List Period) (p : Period),
      renderSummary tr (ps1 ++ p :: ps2) =
        String.intercalate "; "
          (ps1.map (renderPeriod tr) ++
            renderPeriod tr p :: ps2.map (renderPeriod tr))) := by
  constructor
  · intro key ph e h
    show (match pyFormat (templateFor key) ph with
      | Except.ok s => s
      | Except.error _ => templateFor key) = templateFor key
    rw [h]
  · intro tr ps1 ps2 p
    unfold renderSummary
    have hne : (ps1 ++ p :: ps2).isEmpty = false := by simp
    simp [hne]

/-- Witness for C3: the "now" template with an empty placeholder map
raises `KeyError` inside `format`, and the fragment falls back to the
unformatted template text. -/
theorem c3_template_failure_fallback_witness :
    pyFormat (templateFor "now") [] = Except.error FormatError.keyError ∧
    templateFor "now" = "{precipitation} now" ∧
    translateForecast "now" [] = templateFor "now" :=
  ⟨by decide, by decide,
    c3_template_failure_fallback.1 "now" [] FormatError.keyError (by decide)⟩

/-- C4: the dominant type a period exposes through the classifier is
never the clear type: the type-name component of its description key is
drawn from rain/snow/sleet/hail/precipitation, and when every sample of
the period reports the clear type the description key is the generic
`tier ++ "_precipitation"` descriptor.  (The raw `type` field of the
period dict holds `"clear"` in that case; the spec-level `dominantType`
is what the classifier derives from it.) -/
theorem c4_dominant_type_never_clear (ms : List Minute)
    (h : ∀ m ∈ ms, 0 ≤ m.inten) :
    ∀ p ∈ segment ms,
      typeNameOf p.type ≠ "clear" ∧
      ((∀ i, p.start ≤ i → i ≤ p.endIdx → ptypeAt ms i = "clear") →
        getPrecipitationDescriptionKey p.type p.max_intensity =
          tierOf p.max_intensity ++ "_" ++ "precipitation") := by
  intro p hp
  rw [segment_eq_maximalRunSegments ms h] at hp
  obtain ⟨-, -, h3⟩ := maximalRunSegments_mem ms.length ms 0 p le_rfl hp
  constructor
  · unfold typeNameOf
    split_ifs with ht
    · rcases ht with h | h | h | h <;> rw [h] <;> decide
    · decide
  · intro hall
    have hclear : p.type = "clear" := h3 (by
      intro i h1 h2
      simpa using hall i h1 h2)
    rw [descKey_eq, hclear]
    have : typeNameOf "clear" = "precipitation" := by decide
    rw [this]

/-- Witness for C4: a single wet minute whose dict lacks the type key
(so every sample of the period reports "clear") classifies as light
generic precipitation. -/
theorem c4_dominant_type_never_clear_witness :
    typeNameOf (⟨(0 : ℕ), (0 : ℕ), "clear", (1 : ℚ)⟩ : Period).type ≠ "clear" ∧
    getPrecipitationDescriptionKey "clear" 1 = tierOf 1 ++ "_" ++ "precipitation" := by
  have h := c4_dominant_type_never_clear [⟨none, some 1, none, none⟩] (by decide)
    ⟨0, 0, "clear", 1⟩ (by decide)
  exact ⟨h.1, h.2 (by
    intro i h1 h2
    have h2a : i ≤ 0 := h2
    have : i = 0 := by omega
    subst this
    decide)⟩

/-- C5: for a non-empty period list the renderer emits one fragment per
period, each selected by the spec's four priority cases on
(start, duration) with `duration = end - start + 1`, joined with "; " in
period order; for the empty list it renders the "no precipitation"
state key. -/
theorem c5_renderer_template_selection (tr : Translations) (ps : List Period) :
    renderSummary tr [] = translateState tr "no_precipitation" ∧
    (ps ≠ [] → renderSummary tr ps =
      String.intercalate "; " (ps.map (specRenderPeriod tr))) := by
  constructor
  · rfl
  · intro h
    unfold renderSummary
    have hne : ps.isEmpty = false := by simpa [List.isEmpty_iff] using h
    have hmap : ps.map (renderPeriod tr) = ps.map (specRenderPeriod tr) :=
      List.map_congr_left (fun p _ => renderPeriod_eq_spec tr p)
    simp [hne, hmap, h]

/-- Witness for C5 at a one-period list. -/
theorem c5_renderer_template_selection_witness :
    (([(⟨0, 2, "rain", 1⟩ : Period)] : List Period) ≠ []) ∧
    renderSummary trEmpty [(⟨0, 2, "rain", 1⟩ : Period)] =
      String.intercalate "; "
        ([(⟨0, 2, "rain", 1⟩ : Period)].map (specRenderPeriod trEmpty)) :=
  ⟨by decide, (c5_renderer_template_selection trEmpty _).2 (by decide)⟩

/-- C6: the icon is the day/night default exactly when segmentation
yields no periods (in particular for empty minutes), and otherwise is
determined solely by the first period through the spec's
type-and-tier mapping; the daylight flag is irrelevant once a period
exists. -/
theorem c6_icon_selection (isDaylight : Bool) (ms : List Minute) :
    forecastIcon isDaylight ms = selectIcon (segmentIcon ms) isDaylight ∧
    (segmentIcon ms ≠ [] → forecastIcon true ms = forecastIcon false ms) := by
  by_cases hms : ms.isEmpty
  · have hnil : ms = [] := List.isEmpty_iff.mp hms
    subst hnil
    exact ⟨rfl, fun h => absurd rfl h⟩
  · have hms2 : ms.isEmpty = false := by simpa using hms
    constructor
    · cases hseg : segmentIcon ms with
      | nil => simp [forecastIcon, selectIcon, hms2, hseg]
      | cons p t =>
        simp only [forecastIcon, selectIcon, hms2, Bool.false_eq_true,
          if_false, hseg]
        by_cases hr : p.type = "rain"
        · by_cases hi : p.max_intensity < rate25 <;>
            simp [hr, hi, tierOf_eq_light_iff]
        · by_cases hsn : p.type = "snow"
          · by_cases hi : p.max_intensity < rate25 <;>
              simp [hr, hsn, hi, tierOf_eq_light_iff]
          · simp [hr, hsn]
    · intro hseg
      cases hs : segmentIcon ms with
      | nil => exact absurd hs hseg
      | cons p t => simp [forecastIcon, hms2, hs]

/-- Witness for C6: one wet rain minute yields a period, and the icon is
then independent of the daylight flag. -/
theorem c6_icon_selection_witness :
    segmentIcon [wetRainMinute] ≠ [] ∧
    forecastIcon true [wetRainMinute] = forecastIcon false [wetRainMinute] :=
  ⟨by decide, (c6_icon_selection true [wetRainMinute]).2 (by decide)⟩

/-- C7: the classifier's description key is the tier text (`light` below
2.5, `moderate` from 2.5 below 10.0, `heavy` from 10.0) joined by an
underscore to the type name, which is one of rain/snow/sleet/hail with
"precipitation" as the fallback. -/
theorem c7_classifier_key :
    (∀ (t : String) (i : ℚ), getPrecipitationDescriptionKey t i =
      tierOf i ++ "_" ++ typeNameOf t) ∧
    (∀ i : ℚ, (i < 2.5 → tierOf i = "light") ∧
      (2.5 ≤ i → i < 10 → tierOf i = "moderate") ∧
      (10 ≤ i → tierOf i = "heavy")) ∧
    (∀ t : String, typeNameOf t = "rain" ∨ typeNameOf t = "snow" ∨
      typeNameOf t = "sleet" ∨ typeNameOf t = "hail" ∨
      typeNameOf t = "precipitation") := by
  refine ⟨descKey_eq, ?_, ?_⟩
  · intro i
    rw [← rate25_eq]
    unfold tierOf
    refine ⟨fun h => by simp [h], fun h1 h2 => ?_, fun h => ?_⟩
    · rw [if_neg (by exact not_lt.mpr h1), if_pos h2]
    · rw [if_neg (by exact not_lt.mpr (le_trans (by norm_num [rate25]) h)),
        if_neg (by exact not_lt.mpr h)]
  · intro t
    unfold typeNameOf
    split_ifs with h
    · rcases h with h | h | h | h <;> simp [h]
    · simp

/-- Witness for C7's tier cases at `peakIntensity = 3`. -/
theorem c7_classifier_key_witness :
    (2.5 : ℚ) ≤ 3 ∧ (3 : ℚ) < 10 ∧ tierOf 3 = "moderate" :=
  ⟨by norm_num, by norm_num,
    (c7_classifier_key.2.1 3).2.1 (by norm_num) (by norm_num)⟩

/-- C8 counterexample: when the forecast data set key is absent from the
coordinator data, `native_value` returns `None` (no value), not the
translated "no precipitation" string the claim requires. -/
theorem c8_missing_data_counterexample :
    nativeValue trEmpty true (some ⟨none⟩) = StateVal.noValue ∧
    nativeValue trEmpty true (some ⟨none⟩) ≠
      StateVal.strVal (translateState trEmpty "no_precipitation") := by
  exact ⟨rfl, by simp [nativeValue]⟩

/-- C8 (amended): when the forecast data set is present but empty, or
its minutes array is missing or empty, the core yields the translated
"no precipitation" result rather than raising; when the coordinator
data or the forecast data set is absent the sensor yields no value. -/
theorem c8_missing_data (tr : Translations) (td : TopData) (nh : NextHourData) :
    nativeValue tr true none = StateVal.noValue ∧
    (td.forecastNextHour = none → nativeValue tr true (some td) = StateVal.noValue) ∧
    (nh.isEmpty = true ∨ getMinutes nh = [] →
      nativeValue tr true (some ⟨some nh⟩) =
        StateVal.strVal (translateState tr "no_precipitation")) := by
  refine ⟨rfl, ?_, ?_⟩
  · intro h
    simp [nativeValue, h]
  · intro h
    rcases h with h | h
    · simp [nativeValue, h]
    · by_cases hne : nh.isEmpty
      · simp [nativeValue, hne]
      · simp [nativeValue, hne, h]

/-- Witness for C8 (amended) at an absent data set and at an empty
payload. -/
theorem c8_missing_data_witness :
    nativeValue trEmpty true (some ⟨none⟩) = StateVal.noValue ∧
    nativeValue trEmpty true (some ⟨some ([] : NextHourData)⟩) =
      StateVal.strVal (translateState trEmpty "no_precipitation") :=
  ⟨(c8_missing_data trEmpty ⟨none⟩ []).2.1 rfl,
    (c8_missing_data trEmpty ⟨none⟩ []).2.2 (Or.inl rfl)⟩

/-- C9: for a present payload with a non-empty minutes array, the
attributes carry `minute_count = len(minutes)` — the length as received,
with no truncation — and a per-minute pass-through of start time,
intensity, chance and type. -/
theorem c9_attributes_passthrough (nh : NextHourData)
    (h : getMinutes nh ≠ []) :
    (extraStateAttributes (some ⟨some nh⟩)).minute_count =
      some (getMinutes nh).length ∧
    (extraStateAttributes (some ⟨some nh⟩)).minutes =
      some ((getMinutes nh).map minuteToAttr) := by
  unfold extraStateAttributes
  have hne : (getMinutes nh).isEmpty = false := by
    simpa [List.isEmpty_iff] using h
  simp [hne]

/-- Witness for C9 at a 61-minute payload: `minute_count` is the
pre-truncation length 61. -/
theorem c9_attributes_passthrough_witness :
    getMinutes (nhWith (List.replicate 61 wetRainMinute)) ≠ [] ∧
    (extraStateAttributes
      (some ⟨some (nhWith (List.replicate 61 wetRainMinute))⟩)).minute_count =
      some 61 := by
  refine ⟨by decide, ?_⟩
  rw [(c9_attributes_passthrough (nhWith (List.replicate 61 wetRainMinute))
    (by decide)).1]
  decide

/-- C10: the segmentation loop inlined in the summary computation and
the one inlined in the icon computation are the same function: they
produce identical period lists (same start, end, type and max_intensity)
on every minutes list, so summary and icon are derived from the same
period decomposition of a given list. -/
theorem c10_segmentation_loops_agree :
    ∀ ms : List Minute, segmentIcon ms = segment ms := fun _ => rfl

end WeatherKit
